import Mathlib

/-!
# Verification of the pylogs/loglama context-propagation and structured-sink core

Shallow embedding of the repository's context store, capture decorator,
record-enrichment filter, SQLite log persistence, and CLI query/clear commands,
together with proofs of the specified properties.

The `loglama.utils.context` module (ContextStore / LogContext / capture_context)
is not part of the source tree available here — only its debug scripts, tests and
callers are — so its definitions are modelled from the specification text and are
marked as such.  Everything else (level mapping, insert paths, schema creation,
CLI `logs` and `clear`) is translated directly from the Python source files.
-/

namespace PyLogs

/-- A context value: string, number, or boolean, per the spec's data model for
the ContextStore mapping. -/
inductive Value where
  | str : String → Value
  | num : Int → Value
  | bool : Bool → Value
deriving DecidableEq, Repr

/-- One context layer: ordered key/value bindings.  Within a layer the first
binding for a key wins on lookup (newer `set` calls prepend). -/
abbrev Layer := List (String × Value)

/-- Modelled from the spec: the ContextStore of one execution unit is a stack of
active layers, innermost layer first.  (The implementing module
`loglama.utils.context` is absent from the source tree.) -/
abbrev Store := List Layer

/-- Modelled from the spec: `get_all` returns the effective merged view — later
(innermost) layers shadow earlier ones for the same key; keys never present in
any active layer are absent.  Here expressed as a lookup function. -/
def getAll (s : Store) (k : String) : Option Value :=
  match s with
  | [] => none
  | layer :: rest =>
    match layer.lookup k with
    | some v => some v
    | none => getAll rest k

/-- Modelled from the spec: entering a ContextScope pushes a new layer seeded
with the given pairs. -/
def enterScope (kvs : Layer) (s : Store) : Store := kvs :: s

/-- Modelled from the spec: scope exit pops exactly the layer the scope
pushed. -/
def exitScope (s : Store) : Store := s.tail

/-- Modelled from the spec: `set(key, value)` adds/overwrites a key in the
current (topmost) layer only; the store is created lazily on first access. -/
def setTop (k : String) (v : Value) (s : Store) : Store :=
  match s with
  | [] => [[(k, v)]]
  | layer :: rest => ((k, v) :: layer) :: rest

/-- Application code running under the context API, as a small syntax of the
operations the spec exposes: return a value, raise an error, `set` a key in the
current layer, or run a nested context scope (`with LogContext(...)`) and then
continue.  This is what a function body wrapped by `capture_context` can do to
the store. -/
inductive Prog (E B : Type) : Type where
  | ret : B → Prog E B
  | raiseE : E → Prog E B
  | setK : String → Value → Prog E B → Prog E B
  | withScope : Layer → Prog E B → Prog E B → Prog E B

/-- Run a program against a store: `withScope kvs inner rest` pushes `kvs`, runs
`inner`, pops the layer whether `inner` returned or raised, and on normal
completion continues with `rest` (an exception propagates after the pop, as a
Python `with` block does). -/
def run {E B : Type} : Prog E B → Store → Except E B × Store
  | .ret b, s => (Except.ok b, s)
  | .raiseE e, s => (Except.error e, s)
  | .setK k v p, s => run p (setTop k v s)
  | .withScope kvs inner rest, s =>
    match run inner (enterScope kvs s) with
    | (Except.ok _, s2) => run rest (exitScope s2)
    | (Except.error e, s2) => (Except.error e, exitScope s2)

/-- Modelled from the spec: `capture_context(kvs)` wraps a function body so that
each call enters a ContextScope seeded with `kvs`, runs the body, exits the
scope whether the body returned or raised, and propagates the body's outcome. -/
def captureContext {E B : Type} (kvs : Layer) (body : Prog E B) (s : Store) :
    Except E B × Store :=
  match run body (enterScope kvs s) with
  | (r, s2) => (r, exitScope s2)

/-- Running a program on a store with at least one layer leaves every layer
below the topmost one untouched: `set` writes only to the topmost layer and
scopes are pushed and popped in a balanced way. -/
theorem run_preserves_below {E B : Type} (p : Prog E B) :
    ∀ (l : Layer) (s : Store), ∃ r l2, run p (l :: s) = (r, l2 :: s) := by
  induction p with
  | ret b => intro l s; exact ⟨Except.ok b, l, rfl⟩
  | raiseE e => intro l s; exact ⟨Except.error e, l, rfl⟩
  | setK k v p ih =>
    intro l s
    obtain ⟨r, l2, h⟩ := ih ((k, v) :: l) s
    exact ⟨r, l2, h⟩
  | withScope kvs inner rest ih1 ih2 =>
    intro l s
    obtain ⟨r1, l1, h1⟩ := ih1 kvs (l :: s)
    cases r1 with
    | ok b =>
      obtain ⟨r2, l2, h2⟩ := ih2 l s
      refine ⟨r2, l2, ?_⟩
      simp only [run, enterScope, h1, exitScope, List.tail_cons]
      exact h2
    | error e =>
      refine ⟨Except.error e, l, ?_⟩
      simp only [run, enterScope, h1, exitScope, List.tail_cons]

/-- C1.  For every function body wrapped by `capture_context` and every starting
context store, after the wrapped call (whether the body returned normally or
raised), `get_all()` equals exactly the mapping it returned before the call, and
the body's own return value or exception is propagated unchanged. -/
theorem captureContext_restores_and_propagates {E B : Type}
    (kvs : Layer) (body : Prog E B) (s : Store) :
    (captureContext kvs body s).2 = s ∧
    (∀ k, getAll (captureContext kvs body s).2 k = getAll s k) ∧
    (captureContext kvs body s).1 = (run body (enterScope kvs s)).1 := by
  obtain ⟨r, l2, h⟩ := run_preserves_below body kvs s
  refine ⟨?_, ?_, ?_⟩
  · simp only [captureContext, enterScope, h, exitScope, List.tail_cons]
  · intro k
    simp only [captureContext, enterScope, h, exitScope, List.tail_cons]
  · simp only [captureContext, enterScope, h, exitScope]

/-- C2.  Context layers are strictly LIFO with innermost shadowing: from any
store where `a` is not bound, entering a scope with `{a: v1}` and then a nested
scope with `{a: v2}` makes `get_all()["a"]` equal `v2`; after exiting the inner
scope it equals `v1`; after exiting the outer scope `a` is absent again. -/
theorem nesting_lifo (s : Store) (v1 v2 : Value) (h : getAll s "a" = none) :
    getAll (enterScope [("a", v2)] (enterScope [("a", v1)] s)) "a" = some v2 ∧
    getAll (exitScope (enterScope [("a", v2)] (enterScope [("a", v1)] s))) "a"
      = some v1 ∧
    getAll (exitScope (exitScope
      (enterScope [("a", v2)] (enterScope [("a", v1)] s)))) "a" = none := by
  refine ⟨rfl, rfl, ?_⟩
  simpa [enterScope, exitScope] using h

/-- Witness for C2 at the empty starting store with v1 = 1, v2 = 2. -/
theorem nesting_lifo_witness :
    getAll ([] : Store) "a" = none ∧
    (getAll (enterScope [("a", Value.num 2)]
        (enterScope [("a", Value.num 1)] [])) "a" = some (Value.num 2) ∧
     getAll (exitScope (enterScope [("a", Value.num 2)]
        (enterScope [("a", Value.num 1)] []))) "a" = some (Value.num 1) ∧
     getAll (exitScope (exitScope (enterScope [("a", Value.num 2)]
        (enterScope [("a", Value.num 1)] [])))) "a" = none) :=
  ⟨rfl, nesting_lifo [] (Value.num 1) (Value.num 2) rfl⟩

/-- Remove duplicate keys from an association list, keeping the first
occurrence of each key. -/
def dedupKeys : List (String × Value) → List (String × Value)
  | [] => []
  | (k, v) :: rest => (k, v) :: (dedupKeys rest).filter (fun p => p.1 ≠ k)

/-- Modelled from the spec: the dict returned by `LogContext.get_context()` —
the merged view of all active layers with the innermost binding for each key
winning — as an association list with pairwise-distinct keys. -/
def snapshot (s : Store) : List (String × Value) :=
  dedupKeys s.flatten

theorem lookup_append (l1 l2 : List (String × Value)) (k : String) :
    (l1 ++ l2).lookup k =
      match l1.lookup k with
      | some v => some v
      | none => l2.lookup k := by
  induction l1 with
  | nil => rfl
  | cons p rest ih =>
    obtain ⟨k0, v0⟩ := p
    cases hk : k == k0 with
    | true => simp [List.lookup, hk]
    | false => simp [List.lookup, hk, ih]

/-- `get_all` agrees with lookup in the concatenation of all layers. -/
theorem getAll_eq_flatten_lookup (s : Store) (k : String) :
    getAll s k = s.flatten.lookup k := by
  induction s with
  | nil => rfl
  | cons layer rest ih =>
    simp only [getAll, List.flatten_cons, lookup_append, ih]

theorem lookup_filter_ne (l : List (String × Value)) (k0 k : String)
    (h : k ≠ k0) :
    (l.filter (fun p => p.1 ≠ k0)).lookup k = l.lookup k := by
  induction l with
  | nil => rfl
  | cons p rest ih =>
    obtain ⟨k1, v1⟩ := p
    rw [List.filter_cons]
    by_cases h1 : k1 = k0
    · subst h1
      have hk : (k == k1) = false := by simpa using h
      have hd : (decide (k1 ≠ k1) : Bool) = false := by simp
      rw [hd, if_neg Bool.false_ne_true, ih]
      simp only [List.lookup, hk]
    · have hd : (decide (k1 ≠ k0) : Bool) = true := by simp [h1]
      rw [hd, if_pos rfl]
      simp only [List.lookup]
      cases hk : k == k1 with
      | true => rfl
      | false => exact ih

/-- Deduplication preserves association-list lookup. -/
theorem dedupKeys_lookup (l : List (String × Value)) (k : String) :
    (dedupKeys l).lookup k = l.lookup k := by
  induction l with
  | nil => rfl
  | cons p rest ih =>
    obtain ⟨k0, v0⟩ := p
    simp only [dedupKeys, List.lookup]
    cases hk : k == k0 with
    | true => simp only [hk]
    | false =>
      have hne : k ≠ k0 := by simpa using hk
      simp only [hk]
      rw [lookup_filter_ne _ _ _ hne, ih]

/-- The snapshot has pairwise-distinct keys (it models a dict). -/
theorem dedupKeys_keys_nodup (l : List (String × Value)) :
    ((dedupKeys l).map Prod.fst).Nodup := by
  induction l with
  | nil => simp [dedupKeys]
  | cons p rest ih =>
    obtain ⟨k0, v0⟩ := p
    simp only [dedupKeys, List.map_cons, List.nodup_cons]
    constructor
    · intro hmem
      simp only [List.mem_map] at hmem
      obtain ⟨q, hq, hqk⟩ := hmem
      have := List.of_mem_filter hq
      simp only [decide_eq_true_eq] at this
      exact this hqk
    · exact ih.sublist ((List.filter_sublist _).map _)

/-- A value held by one record attribute: either a plain context value or the
attached context dict itself.  Python attributes are untyped, and
`record.context = …` and `setattr(record, key, …)` write the same
namespace. -/
inductive Attr where
  | val : Value → Attr
  | ctxMap : List (String × Value) → Attr
deriving DecidableEq, Repr

/-- The dynamic attribute state of one Python log record as seen by the
context filter in `src/debug_file_handler.py`: one shared namespace (the
record's `__dict__`), where the `record.context` assignment and the
`setattr` loop write the same map.  The newest binding for a name shadows
older ones. -/
structure LogRecordAttrs where
  attrs : List (String × Attr)
deriving DecidableEq, Repr

/-- `setattr(record, key, value)` (also performing the `record.context = …`
assignment): the newest binding for a key shadows any older one. -/
def setattrRec (r : LogRecordAttrs) (k : String) (a : Attr) : LogRecordAttrs :=
  { attrs := (k, a) :: r.attrs }

/-- `getattr(record, key, None)`. -/
def getattrRec (r : LogRecordAttrs) (k : String) : Option Attr :=
  r.attrs.lookup k

/-- `ContextFilter.filter` from `src/debug_file_handler.py`:
reads `LogContext.get_context()` (the snapshot of the emitting unit's store),
assigns it to `record.context`, then `setattr`s every key/value of the context
onto the record — into the same attribute namespace — and returns `True`. -/
def contextFilterRun (s : Store) (r : LogRecordAttrs) :
    Bool × LogRecordAttrs :=
  let context := snapshot s
  let r1 := setattrRec r "context" (Attr.ctxMap context)
  let r2 := context.foldl
    (fun acc kv => setattrRec acc kv.1 (Attr.val kv.2)) r1
  (true, r2)

/-- Setting attributes for keys different from `k` does not change the
attribute read at `k`. -/
theorem foldl_setattr_stable (ctx : List (String × Value))
    (r : LogRecordAttrs) (k : String) (a : Attr)
    (hne : ∀ p ∈ ctx, p.1 ≠ k) (h : getattrRec r k = some a) :
    getattrRec
      (ctx.foldl (fun acc kv => setattrRec acc kv.1 (Attr.val kv.2)) r) k
      = some a := by
  induction ctx generalizing r with
  | nil => exact h
  | cons p rest ih =>
    obtain ⟨k0, v0⟩ := p
    have hne0 : k ≠ k0 := Ne.symm (hne (k0, v0) (List.mem_cons_self _ _))
    have hk : (k == k0) = false := by simp [hne0]
    refine ih _ (fun q hq => hne q (List.mem_cons_of_mem _ hq)) ?_
    simpa [getattrRec, setattrRec, List.lookup, hk] using h

/-- After the `setattr` loop over a duplicate-free association list, reading
any listed key from the record yields the listed value. -/
theorem foldl_setattr_lookup (ctx : List (String × Value))
    (r : LogRecordAttrs) (k : String) (v : Value)
    (hnd : (ctx.map Prod.fst).Nodup) (h : ctx.lookup k = some v) :
    getattrRec
      (ctx.foldl (fun acc kv => setattrRec acc kv.1 (Attr.val kv.2)) r) k
      = some (Attr.val v) := by
  induction ctx generalizing r with
  | nil => simp [List.lookup] at h
  | cons p rest ih =>
    obtain ⟨k0, v0⟩ := p
    simp only [List.map_cons, List.nodup_cons] at hnd
    cases hk : k == k0 with
    | true =>
      have hkeq : k = k0 := by simpa using hk
      simp only [List.lookup, hk] at h
      have hv : v0 = v := by simpa using h
      refine foldl_setattr_stable rest _ k (Attr.val v) (fun q hq hqk => ?_) ?_
      · exact hnd.1 (List.mem_map.mpr ⟨q, hq, by rw [hqk, hkeq]⟩)
      · simp [getattrRec, setattrRec, List.lookup, hk, hv]
    | false =>
      simp only [List.lookup, hk] at h
      exact ih _ hnd.2 h

/-- A key absent from an association-list lookup heads no pair of the list. -/
theorem lookup_none_keys (l : List (String × Value)) (k : String)
    (h : l.lookup k = none) : ∀ p ∈ l, p.1 ≠ k := by
  induction l with
  | nil => intro p hp; simp at hp
  | cons q rest ih =>
    intro p hp
    obtain ⟨k0, v0⟩ := q
    cases hk : k == k0 with
    | true => simp [List.lookup, hk] at h
    | false =>
      simp only [List.lookup, hk] at h
      rcases List.mem_cons.mp hp with rfl | hp2
      · exact fun hc => (by simpa using hk : k ≠ k0) hc.symm
      · exact ih h p hp2

theorem snapshot_nil : snapshot ([] : Store) = [] := by
  simp [snapshot, dedupKeys]

/-- The snapshot agrees pointwise with `get_all`. -/
theorem snapshot_lookup (s : Store) (k : String) :
    (snapshot s).lookup k = getAll s k := by
  rw [snapshot, dedupKeys_lookup, getAll_eq_flatten_lookup]

/-- C6 counterexample: `record.context = context` and the `setattr` loop write
the same attribute namespace, so for a store binding a key literally named
`context` the loop overwrites the attached snapshot with that key's scalar
value — the record does not end up carrying the `get_all()` map as its
context attribute, contrary to the claim. -/
theorem contextFilter_counterexample :
    getattrRec (contextFilterRun [[("context", Value.str "req-1")]]
        ⟨[]⟩).2 "context"
      = some (Attr.val (Value.str "req-1")) ∧
    some (Attr.val (Value.str "req-1"))
      ≠ some (Attr.ctxMap (snapshot [[("context", Value.str "req-1")]])) := by
  exact ⟨rfl, by decide⟩

/-- C6 (amended).  For every execution-unit store and record,
`ContextFilter.filter` always returns `True` so the record is never dropped,
and sets each context key as an individually addressable record attribute
carrying its effective (innermost) value; the `get_all()` snapshot remains
attached as `record.context` provided no context key is itself named
`context` — in particular an empty context leaves an empty attached map
rather than failing.  (A context key named `context` instead overwrites the
attached snapshot, because Python `setattr` writes the record's single
attribute namespace.) -/
theorem contextFilter_spec (s : Store) (r : LogRecordAttrs) :
    (contextFilterRun s r).1 = true ∧
    (∀ k v, getAll s k = some v →
      getattrRec (contextFilterRun s r).2 k = some (Attr.val v)) ∧
    (getAll s "context" = none →
      getattrRec (contextFilterRun s r).2 "context"
        = some (Attr.ctxMap (snapshot s))) ∧
    (s = [] →
      getattrRec (contextFilterRun s r).2 "context"
        = some (Attr.ctxMap [])) := by
  have hbase : getattrRec (setattrRec r "context" (Attr.ctxMap (snapshot s)))
      "context" = some (Attr.ctxMap (snapshot s)) := by
    simp [getattrRec, setattrRec, List.lookup]
  have hctx : getAll s "context" = none →
      getattrRec (contextFilterRun s r).2 "context"
        = some (Attr.ctxMap (snapshot s)) := by
    intro hn
    have hsn : (snapshot s).lookup "context" = none := by
      rw [snapshot_lookup, hn]
    exact foldl_setattr_stable (snapshot s) _ "context" _
      (lookup_none_keys _ _ hsn) hbase
  refine ⟨rfl, ?_, hctx, ?_⟩
  · intro k v hv
    have hl : (snapshot s).lookup k = some v := by rw [snapshot_lookup, hv]
    exact foldl_setattr_lookup (snapshot s) _ k v (dedupKeys_keys_nodup _) hl
  · intro hs
    subst hs
    rw [hctx rfl, snapshot_nil]

/-- Witness for C6 (amended): a store with one layer `{user: "u1"}` and a
fresh record.  The filter returns `True`, makes `user` readable, and keeps the
snapshot attached since no key is named `context`. -/
theorem contextFilter_spec_witness :
    (contextFilterRun [[("user", Value.str "u1")]] ⟨[]⟩).1 = true ∧
    (∀ k v, getAll [[("user", Value.str "u1")]] k = some v →
      getattrRec (contextFilterRun [[("user", Value.str "u1")]] ⟨[]⟩).2 k
        = some (Attr.val v)) ∧
    (getAll [[("user", Value.str "u1")]] "context" = none →
      getattrRec (contextFilterRun [[("user", Value.str "u1")]] ⟨[]⟩).2
        "context"
        = some (Attr.ctxMap (snapshot [[("user", Value.str "u1")]]))) ∧
    ([[("user", Value.str "u1")]] = ([] : Store) →
      getattrRec (contextFilterRun [[("user", Value.str "u1")]] ⟨[]⟩).2
        "context"
        = some (Attr.ctxMap [])) :=
  contextFilter_spec [[("user", Value.str "u1")]] ⟨[]⟩

/-- One persisted row of the `log_records` table, with the columns of the
CREATE TABLE statement in `generate_diverse_logs_fixed.py` /
`generate_logs_fixed.py` / `test_db_logging.py`; nullable columns are
`Option`. -/
structure Row where
  timestamp : String
  level : String
  level_number : Int
  logger_name : String
  message : String
  file_path : Option String
  line_number : Option Int
  function : Option String
  module : Option String
  process_id : Option Int
  process_name : Option String
  thread_id : Option Int
  thread_name : Option String
  exception_info : Option String
  context : Option String
deriving DecidableEq, Repr

/-- The SQLite storage as seen by the write paths: the stored rows plus a flag
modelling an underlying storage failure (disk full, locked, unwritable file). -/
structure DBState where
  rows : List Row
  failing : Bool
deriving DecidableEq, Repr

/-- The raw `sqlite3` connect/INSERT/commit sequence: raises an operational
error when the storage is failing, otherwise appends the row. -/
def insertRowRaw (db : DBState) (r : Row) : Except String DBState :=
  if db.failing then Except.error "sqlite3.OperationalError"
  else Except.ok { db with rows := db.rows ++ [r] }

/-- The `level_map` dict of `get_level_number` in
`src/examples/loglama-grafana/generate_diverse_logs_fixed.py`. -/
def levelMap : List (String × Int) :=
  [("DEBUG", 10), ("INFO", 20), ("WARNING", 30), ("ERROR", 40),
   ("CRITICAL", 50)]

/-- `get_level_number` from
`src/examples/loglama-grafana/generate_diverse_logs_fixed.py`:
`level_map.get(level_name, 20)` — defaults to INFO when the name is not found
(which includes every non-uppercase spelling). -/
def get_level_number (level_name : String) : Int :=
  (levelMap.lookup level_name).getD 20

/-- The row built by `insert_log` in `generate_diverse_logs_fixed.py`.  The
script's random line number and random function-name suffix are passed in as
explicit arguments; the columns not named in its INSERT statement are NULL. -/
def insertLogRow (component level message ts : String) (randLine : Int)
    (randFn : String) : Row :=
  { timestamp := ts
    level := level
    level_number := get_level_number level
    logger_name := component
    message := message
    file_path := some ("/app/" ++ component.replace "." "/" ++ ".py")
    line_number := some randLine
    function := some ("handle_" ++ randFn)
    module := some ((component.splitOn ".").getLastD component)
    process_id := none
    process_name := none
    thread_id := none
    thread_name := none
    exception_info := none
    context := none }

/-- `insert_log` from `generate_diverse_logs_fixed.py`: builds the row (using
`now` when no timestamp is supplied), inserts and commits inside a
`try`/`except` that logs the error and returns `False` instead of raising. -/
def insert_log (db : DBState) (component level message : String)
    (timestamp : Option String) (now : String) (randLine : Int)
    (randFn : String) : Bool × DBState :=
  let ts := timestamp.getD now
  match insertRowRaw db (insertLogRow component level message ts randLine randFn) with
  | Except.ok db2 => (true, db2)
  | Except.error _ => (false, db)

/-- The attributes of a Python `logging.LogRecord` read by
`SQLiteHandler.emit` in `generate_logs_fixed.py`; the `hasattr`-guarded ones
are `Option` (absent attribute falls back to `''` / `0`). -/
structure PyRecord where
  created : String
  levelname : String
  levelno : Int
  name : String
  msg : String
  pathname : Option String
  lineno : Option Int
  funcName : Option String
  module : Option String
deriving DecidableEq, Repr

/-- The row inserted by `SQLiteHandler.emit` in `generate_logs_fixed.py`: nine
columns are written, the remaining columns (process/thread info,
exception_info, context) are left NULL. -/
def rowOfRecord (rec : PyRecord) : Row :=
  { timestamp := rec.created
    level := rec.levelname
    level_number := rec.levelno
    logger_name := rec.name
    message := rec.msg
    file_path := some (rec.pathname.getD "")
    line_number := some (rec.lineno.getD 0)
    function := some (rec.funcName.getD "")
    module := some (rec.module.getD "")
    process_id := none
    process_name := none
    thread_id := none
    thread_name := none
    exception_info := none
    context := none }

/-- `SQLiteHandler.emit` from `generate_logs_fixed.py`: connects, inserts and
commits with no `try`/`except` — an underlying storage error propagates to the
caller. -/
def SQLiteHandler.emit (db : DBState) (rec : PyRecord) : Except String DBState :=
  insertRowRaw db (rowOfRecord rec)

/-- C3 counterexample: the claim promises the canonical number for the level in
*any* input casing, but `get_level_number` only maps the uppercase spellings
and falls back to 20: a record persisted by `insert_log` with level `"debug"`
stores `level_number = 20`, not the canonical 10 of DEBUG. -/
theorem level_casing_counterexample :
    get_level_number "DEBUG" = 10 ∧
    get_level_number "debug" = 20 ∧
    (insertLogRow "app" "debug" "m" "2026-01-01T00:00:00" 1 "request").level_number
      = 20 := by
  refine ⟨rfl, rfl, rfl⟩

/-- C3 (amended).  For a level name supplied in its canonical uppercase
spelling, the row persisted by `insert_log` carries the canonical numeric
severity from `level_map` (10/20/30/40/50); any other spelling, including
lowercase, falls back to 20.  On the `SQLiteHandler.emit` path the stored
`level_number` is the record's numeric `levelno`, independent of casing. -/
theorem level_mapping_canonical (component message ts : String)
    (randLine : Int) (randFn : String) (rec : PyRecord)
    (level : String) (n : Int) (h : levelMap.lookup level = some n) :
    (insertLogRow component level message ts randLine randFn).level_number = n ∧
    (insertLogRow component level message ts randLine randFn).level = level ∧
    (rowOfRecord rec).level_number = rec.levelno := by
  refine ⟨?_, rfl, rfl⟩
  simp [insertLogRow, get_level_number, h]

/-- Witness for C3 (amended) at level `"DEBUG"`. -/
theorem level_mapping_canonical_witness :
    levelMap.lookup "DEBUG" = some 10 ∧
    ((insertLogRow "app" "DEBUG" "m" "t" 1 "request").level_number = 10 ∧
     (insertLogRow "app" "DEBUG" "m" "t" 1 "request").level = "DEBUG" ∧
     (rowOfRecord ⟨"t", "DEBUG", 10, "app", "m", none, none, none, none⟩).level_number
       = (⟨"t", "DEBUG", 10, "app", "m", none, none, none, none⟩ : PyRecord).levelno) :=
  ⟨rfl, level_mapping_canonical "app" "m" "t" 1 "request"
    ⟨"t", "DEBUG", 10, "app", "m", none, none, none, none⟩ "DEBUG" 10 rfl⟩

/-- C4 counterexample: the claim says the write path never raises to its
caller, but `SQLiteHandler.emit` in `generate_logs_fixed.py` has no
`try`/`except` — an underlying storage failure during its insert propagates
out of `emit` instead of being reported as a failure result. -/
theorem emit_raises_counterexample :
    SQLiteHandler.emit ⟨[], true⟩ ⟨"t", "INFO", 20, "app", "m", none, none, none, none⟩
      = Except.error "sqlite3.OperationalError" := rfl

/-- C4 (amended).  `insert_log` never raises: on a storage failure it returns
`False` leaving the store unchanged, otherwise it returns `True` having
appended exactly one row; records with no exception info and empty context
are stored with those columns NULL on both write paths (`insert_log` and
`SQLiteHandler.emit`).  `SQLiteHandler.emit`, however, propagates a storage
failure to its caller (see the counterexample). -/
theorem insert_log_never_raises (db : DBState) (component level message : String)
    (timestamp : Option String) (now : String) (randLine : Int) (randFn : String)
    (rec : PyRecord) :
    insert_log db component level message timestamp now randLine randFn =
      (if db.failing then (false, db)
       else (true, { db with rows := db.rows ++
         [insertLogRow component level message (timestamp.getD now) randLine randFn] })) ∧
    (insertLogRow component level message (timestamp.getD now) randLine randFn).exception_info
      = none ∧
    (insertLogRow component level message (timestamp.getD now) randLine randFn).context
      = none ∧
    (rowOfRecord rec).exception_info = none ∧
    (rowOfRecord rec).context = none := by
  refine ⟨?_, rfl, rfl, rfl, rfl⟩
  by_cases h : db.failing <;> simp [insert_log, insertRowRaw, h]

/-- The schema-relevant state of the SQLite database file: which of the table
and the two indexes exist, plus the stored rows. -/
structure SchemaState where
  hasLogRecordsTable : Bool
  hasTimestampIndex : Bool
  hasLevelIndex : Bool
  rows : List Row
deriving DecidableEq, Repr

/-- `ensure_db_schema` from `generate_diverse_logs_fixed.py` (the same DDL as
`ensure_db_exists` in `test_db_logging.py`): `CREATE TABLE IF NOT EXISTS
log_records`, `CREATE INDEX IF NOT EXISTS` on `timestamp` and on
`level_number`, then commit — DDL only, no row is written or removed. -/
def ensure_db_schema (s : SchemaState) : SchemaState :=
  { s with
    hasLogRecordsTable := true
    hasTimestampIndex := true
    hasLevelIndex := true }

/-- C5.  `ensure_db_schema` creates the row table and both indexes when
absent, is idempotent (a second run leaves the schema state identical to one
run), and never deletes or modifies existing rows. -/
theorem ensure_db_schema_idempotent (s : SchemaState) :
    ensure_db_schema (ensure_db_schema s) = ensure_db_schema s ∧
    (ensure_db_schema s).hasLogRecordsTable = true ∧
    (ensure_db_schema s).hasTimestampIndex = true ∧
    (ensure_db_schema s).hasLevelIndex = true ∧
    (ensure_db_schema s).rows = s.rows :=
  ⟨rfl, rfl, rfl, rfl, rfl⟩

/-- A row as the CLI reads it through `loglama.db.models.LogRecord` — the
columns the `logs` and `clear` commands in `src/loglama/cli/main.py` filter
and display. -/
structure CLIRow where
  id : Nat
  timestamp : String
  level : String
  logger_name : String
  module : String
  message : String
deriving DecidableEq, Repr

/-- SQLAlchemy `column.like("%pat%")`: the pattern occurs as a substring of
the column value. -/
def likeContains (s pat : String) : Bool :=
  decide (pat.toList <:+: s.toList)

/-- Newest-first ordering on rows: `a` may precede `b` when `b`'s timestamp is
at most `a`'s (ISO-8601 timestamps compare chronologically as strings). -/
def newerEq (a b : CLIRow) : Prop := b.timestamp ≤ a.timestamp

instance : DecidableRel newerEq := fun a b =>
  (inferInstance : Decidable (b.timestamp ≤ a.timestamp))

instance : IsTotal CLIRow newerEq :=
  ⟨fun a b => le_total b.timestamp a.timestamp⟩

instance : IsTrans CLIRow newerEq :=
  ⟨fun _ _ _ h1 h2 => le_trans h2 h1⟩

/-- The filter options of the CLI `logs` command (`--level`, `--logger`,
`--module`); `None` means the option was not given. -/
structure LogsFilters where
  level : Option String
  logger : Option String
  module : Option String
deriving DecidableEq, Repr

/-- The row predicate built by the `logs` command: exact level match after
uppercasing the option, `LIKE %…%` on logger name and module. -/
def logsMatches (f : LogsFilters) (r : CLIRow) : Bool :=
  (match f.level with
   | none => true
   | some lv => r.level == lv.toUpper) &&
  (match f.logger with
   | none => true
   | some lg => likeContains r.logger_name lg) &&
  (match f.module with
   | none => true
   | some md => likeContains r.module md)

/-- The query pipeline of the `logs` command in `src/loglama/cli/main.py`
(lines 224–239): apply the filters, order by timestamp descending, then
truncate to `limit` rows (the `--limit` option, default 50). -/
def logsQuery (f : LogsFilters) (limit : Nat) (rows : List CLIRow) :
    List CLIRow :=
  (List.insertionSort newerEq (rows.filter (logsMatches f))).take limit

/-- The filter options of the CLI `clear` command, including `--all`. -/
structure ClearFilters where
  level : Option String
  logger : Option String
  module : Option String
  allFlag : Bool
deriving DecidableEq, Repr

/-- The row predicate of the `clear` command: with `--all` every row matches
(filters are ignored); otherwise the same level/logger/module filters as
`logs`, and with no filter given every row matches. -/
def clearMatches (f : ClearFilters) (r : CLIRow) : Bool :=
  if f.allFlag then true
  else
    (match f.level with
     | none => true
     | some lv => r.level == lv.toUpper) &&
    (match f.logger with
     | none => true
     | some lg => likeContains r.logger_name lg) &&
    (match f.module with
     | none => true
     | some md => likeContains r.module md)

/-- The `clear` command in `src/loglama/cli/main.py` (lines 387–427): counts
the rows matched by the query, deletes them, and reports the count; the
remaining table is the non-matching rows. -/
def clearCmd (f : ClearFilters) (rows : List CLIRow) : Nat × List CLIRow :=
  ((rows.filter (clearMatches f)).length,
   rows.filter (fun r => !(clearMatches f r)))

theorem length_filter_add_not (p : CLIRow → Bool) (l : List CLIRow) :
    (l.filter p).length + (l.filter (fun r => !(p r))).length = l.length := by
  induction l with
  | nil => rfl
  | cons a l ih =>
    cases h : p a <;> simp [List.filter_cons, h, ← ih] <;> omega

/-- A batch of 51 rows (more than the default `--limit` of 50), all with the
same level and logger. -/
def manyRows : List CLIRow :=
  (List.range 51).map (fun i => ⟨i, "t", "INFO", "app", "mod", "msg"⟩)

/-- C7 counterexample: with no filter given and the default limit of 50, the
`logs` query over 51 matching rows returns only 50 of them — it does not
return the matching rows, contrary to the claim (and the command has no
time-range filter at all). -/
theorem logsQuery_counterexample :
    (logsQuery ⟨none, none, none⟩ 50 manyRows).length = 50 ∧
    (manyRows.filter (logsMatches ⟨none, none, none⟩)).length = 51 ∧
    logsQuery ⟨none, none, none⟩ 50 manyRows
      ≠ manyRows.filter (logsMatches ⟨none, none, none⟩) := by
  have hfil : manyRows.filter (logsMatches ⟨none, none, none⟩) = manyRows :=
    List.filter_eq_self.mpr (fun r _ => rfl)
  have hlen : manyRows.length = 51 := by simp [manyRows]
  have hsortlen :
      (List.insertionSort newerEq
        (manyRows.filter (logsMatches ⟨none, none, none⟩))).length = 51 := by
    rw [(List.perm_insertionSort newerEq _).length_eq, hfil, hlen]
  refine ⟨?_, ?_, ?_⟩
  · rw [logsQuery, List.length_take, hsortlen]
    decide
  · rw [hfil, hlen]
  · intro hcontra
    have h1 : (logsQuery ⟨none, none, none⟩ 50 manyRows).length = 50 := by
      rw [logsQuery, List.length_take, hsortlen]
      decide
    rw [hcontra, hfil, hlen] at h1
    omega

/-- C7 (amended).  The `logs` query returns only rows matching the given
level/logger/module filters, ordered by timestamp descending; when at most
`limit` rows match it returns exactly the matching rows (as a permutation),
otherwise it truncates to the first `limit` of the descending ordering.  There
is no time-range filter. -/
theorem logsQuery_spec (f : LogsFilters) (limit : Nat) (rows : List CLIRow) :
    List.Sorted newerEq (logsQuery f limit rows) ∧
    (∀ r ∈ logsQuery f limit rows, logsMatches f r = true) ∧
    ((rows.filter (logsMatches f)).length ≤ limit →
      (logsQuery f limit rows).Perm (rows.filter (logsMatches f))) := by
  refine ⟨?_, ?_, ?_⟩
  · exact (List.sorted_insertionSort newerEq _).sublist
      (List.take_sublist _ _)
  · intro r hr
    have hmem : r ∈ List.insertionSort newerEq (rows.filter (logsMatches f)) :=
      (List.take_sublist _ _).mem hr
    have : r ∈ rows.filter (logsMatches f) :=
      (List.mem_insertionSort newerEq).mp hmem
    exact (List.mem_filter.mp this).2
  · intro hle
    have hlen :
        (List.insertionSort newerEq (rows.filter (logsMatches f))).length
          ≤ limit := by
      rw [(List.perm_insertionSort newerEq _).length_eq]
      exact hle
    rw [logsQuery, List.take_of_length_le hlen]
    exact List.perm_insertionSort newerEq _

/-- Witness for C7 (amended): two rows, no filters, limit 50. -/
theorem logsQuery_spec_witness :
    List.Sorted newerEq (logsQuery ⟨none, none, none⟩ 50
      [⟨1, "a", "INFO", "x", "m", "p"⟩, ⟨2, "b", "INFO", "x", "m", "q"⟩]) ∧
    (∀ r ∈ logsQuery ⟨none, none, none⟩ 50
      [⟨1, "a", "INFO", "x", "m", "p"⟩, ⟨2, "b", "INFO", "x", "m", "q"⟩],
      logsMatches ⟨none, none, none⟩ r = true) ∧
    (([⟨1, "a", "INFO", "x", "m", "p"⟩,
       ⟨2, "b", "INFO", "x", "m", "q"⟩].filter
        (logsMatches ⟨none, none, none⟩)).length ≤ 50 →
      (logsQuery ⟨none, none, none⟩ 50
        [⟨1, "a", "INFO", "x", "m", "p"⟩, ⟨2, "b", "INFO", "x", "m", "q"⟩]).Perm
        ([⟨1, "a", "INFO", "x", "m", "p"⟩,
          ⟨2, "b", "INFO", "x", "m", "q"⟩].filter
            (logsMatches ⟨none, none, none⟩))) :=
  logsQuery_spec ⟨none, none, none⟩ 50
    [⟨1, "a", "INFO", "x", "m", "p"⟩, ⟨2, "b", "INFO", "x", "m", "q"⟩]

/-- C8.  `clear` deletes exactly the rows matching the filters and reports
their number: the reported count is the number of matching rows, every
surviving row is non-matching, count plus survivors account for every row
(nothing else is deleted), and with no filter given everything is deleted and
counted. -/
theorem clearCmd_spec (f : ClearFilters) (rows : List CLIRow) :
    (clearCmd f rows).1 = (rows.filter (clearMatches f)).length ∧
    (∀ r ∈ (clearCmd f rows).2, clearMatches f r = false) ∧
    (clearCmd f rows).1 + (clearCmd f rows).2.length = rows.length ∧
    (f.level = none → f.logger = none → f.module = none →
      (clearCmd f rows).2 = [] ∧ (clearCmd f rows).1 = rows.length) := by
  refine ⟨rfl, ?_, length_filter_add_not _ rows, ?_⟩
  · intro r hr
    have := (List.mem_filter.mp hr).2
    simpa using this
  · intro h1 h2 h3
    have hall : ∀ r : CLIRow, clearMatches f r = true := by
      intro r
      cases hfl : f.allFlag <;> simp [clearMatches, hfl, h1, h2, h3]
    constructor
    · exact List.filter_eq_nil_iff.mpr (fun r _ => by simp [hall r])
    · show (rows.filter (clearMatches f)).length = rows.length
      rw [List.filter_eq_self.mpr (fun r _ => hall r)]

/-- Witness for C8: one row, no filters, `--all` not set: it is deleted and
counted. -/
theorem clearCmd_spec_witness :
    (clearCmd ⟨none, none, none, false⟩ [⟨1, "a", "INFO", "x", "m", "p"⟩]).1
      = ([⟨1, "a", "INFO", "x", "m", "p"⟩].filter
          (clearMatches ⟨none, none, none, false⟩)).length ∧
    (∀ r ∈ (clearCmd ⟨none, none, none, false⟩
        [⟨1, "a", "INFO", "x", "m", "p"⟩]).2,
      clearMatches ⟨none, none, none, false⟩ r = false) ∧
    (clearCmd ⟨none, none, none, false⟩ [⟨1, "a", "INFO", "x", "m", "p"⟩]).1
      + (clearCmd ⟨none, none, none, false⟩
          [⟨1, "a", "INFO", "x", "m", "p"⟩]).2.length
      = [(⟨1, "a", "INFO", "x", "m", "p"⟩ : CLIRow)].length ∧
    ((⟨none, none, none, false⟩ : ClearFilters).level = none →
     (⟨none, none, none, false⟩ : ClearFilters).logger = none →
     (⟨none, none, none, false⟩ : ClearFilters).module = none →
      (clearCmd ⟨none, none, none, false⟩
        [⟨1, "a", "INFO", "x", "m", "p"⟩]).2 = [] ∧
      (clearCmd ⟨none, none, none, false⟩
        [⟨1, "a", "INFO", "x", "m", "p"⟩]).1
        = [(⟨1, "a", "INFO", "x", "m", "p"⟩ : CLIRow)].length) :=
  clearCmd_spec ⟨none, none, none, false⟩ [⟨1, "a", "INFO", "x", "m", "p"⟩]

/-- The parameter names click derives from the option declarations on the
`logs` command in `src/loglama/cli/main.py` (lines 200–205): `--level`,
`--logger`, `--module`, `--limit`, `--json` (with its `--no-json` form). -/
def logsOptionNames : List String :=
  ["level", "logger", "module", "limit", "json"]

/-- The parameter names in the `logs` callback's own signature
(`def logs(level, logger_name, module, limit, json_output)`, line 206). -/
def logsCallbackParams : List String :=
  ["level", "logger_name", "module", "limit", "json_output"]

/-- Python's keyword-argument binding for a function whose parameters all lack
defaults: a keyword that names no parameter raises `TypeError`, as does a
parameter left unbound. -/
def callKwargs (params kwargs : List String) : Except String Unit :=
  match kwargs.find? (fun k => !params.contains k) with
  | some k => Except.error ("TypeError: unexpected keyword argument " ++ k)
  | none =>
    match params.find? (fun p => !kwargs.contains p) with
    | some p => Except.error ("TypeError: missing required argument " ++ p)
    | none => Except.ok ()

/-- Invoking the CLI `logs` command: click binds the declared option parameter
names and calls the callback with them as keyword arguments; only when that
call binds does the body run and query the database. -/
def invokeLogsCommand (f : LogsFilters) (limit : Nat) (rows : List CLIRow) :
    Except String (List CLIRow) :=
  match callKwargs logsCallbackParams logsOptionNames with
  | Except.error e => Except.error e
  | Except.ok _ => Except.ok (logsQuery f limit rows)

/-- C10.  Every invocation of the CLI `logs` command fails with a `TypeError`
before any database query is made: click passes keyword arguments named
`logger` and `json`, but the callback's signature expects `logger_name` and
`json_output`, so the call never binds and the query body never runs,
whatever the option values and the database contents. -/
theorem logs_command_type_error (f : LogsFilters) (limit : Nat)
    (rows : List CLIRow) :
    invokeLogsCommand f limit rows
      = Except.error "TypeError: unexpected keyword argument logger" := rfl

end PyLogs
